import Mathlib

/-!
Verification of the zkLogin credential-derivation pipeline of
apps/wallet/src/background/accounts/zk/utils.ts, shallowly embedded in Lean.
Network effects are embedded as explicit request values and response handlers;
entropy (random bytes, fresh keypairs) is passed as explicit arguments.
-/

/-- A JSON value, as produced by JSON.stringify or response.json(). -/
inductive Json where
  | null : Json
  | str : String → Json
  | num : Int → Json
  | bool : Bool → Json
  | arr : List Json → Json
  | obj : List (String × Json) → Json

/-- Field access on a JSON object; none models the undefined of a missing
JavaScript property or a non-object receiver. -/
def jsonLookup (j : Json) (k : String) : Option Json :=
  match j with
  | .obj fields => (fields.find? (fun f => f.1 == k)).map (fun f => f.2)
  | _ => none

/-- Whether a JSON value is an object carrying the field k. -/
def jsonHasField (j : Json) (k : String) : Bool :=
  match j with
  | .obj fields => fields.any (fun f => f.1 == k)
  | _ => false

/-- An HTTP request as assembled by the wallet code: method, url and JSON body.
Embeds the arguments the source passes to fetchWithSentry. -/
structure HttpRequest where
  method : String
  url : String
  contentType : String
  body : Json

/-- toBigIntBE from the bigint-buffer package: the big-endian unsigned integer
over a byte buffer (each byte below 256). -/
def toBigIntBE (bytes : List Nat) : Nat :=
  bytes.foldl (fun acc b => acc * 256 + b) 0

/-- Big-endian decoding of a nonnegative integer back into a byte list of the
given length: the inverse of toBigIntBE when the length matches. -/
def natToBytesBE : Nat → Nat → List Nat
  | 0, _ => []
  | len + 1, n => natToBytesBE len (n / 256) ++ [n % 256]

/-- Little-endian base-10 digit extraction with explicit fuel, so the kernel
can evaluate it. -/
def decDigitsAux : Nat → Nat → List Nat
  | 0, _ => []
  | _ + 1, 0 => []
  | fuel + 1, n => n % 10 :: decDigitsAux fuel (n / 10)

/-- Little-endian base-10 digits of n (empty for 0). -/
def decDigitsLE (n : Nat) : List Nat := decDigitsAux n n

/-- Value of a little-endian digit list. -/
def ofDigitsLE (ds : List Nat) : Nat :=
  ds.foldr (fun d acc => d + 10 * acc) 0

/-- BigInt.prototype.toString of the JavaScript source (radix 10, nonnegative
case): the usual decimal rendering, most significant digit first. -/
def bigintToString (n : Nat) : String :=
  if n = 0 then "0"
  else String.mk (((decDigitsLE n).reverse).map Nat.digitChar)

/-- Parsing a decimal digit string back to the integer it denotes; none on an
empty string or a non-digit character. -/
def parseDecimal (s : String) : Option Nat :=
  match s.data with
  | [] => none
  | cs =>
    if cs.all Char.isDigit then
      some (ofDigitsLE ((cs.map (fun c => c.toNat - 48)).reverse))
    else none

/-- An Ed25519 public key, identified by its canonical Sui byte encoding
(what toSuiBytes returns: the scheme flag byte followed by the raw key). -/
structure PublicKey where
  suiBytes : List Nat
deriving DecidableEq, Repr

/-- An Ed25519 keypair; only the public half is consumed by this pipeline. -/
structure Ed25519Keypair where
  publicKey : PublicKey
deriving DecidableEq, Repr

/-- Modelled from the spec: generateNonce of the zklogin SDK package, which is
code of this repository not under src. Spec section 4.2: the nonce is
H(publicKey, maxEpoch, randomness) over the proof system's canonical encoding,
deterministic in exactly those three inputs; H is abstracted here as a concrete
injective encoding of the triple. -/
def generateNonce (publicKey : PublicKey) (maxEpoch : Nat) (randomness : Nat) : String :=
  bigintToString (toBigIntBE publicKey.suiBytes) ++ "-" ++
    bigintToString maxEpoch ++ "-" ++ bigintToString randomness

/-- The session record prepareZKLogin returns. -/
structure LoginSession where
  ephemeralKeyPair : Ed25519Keypair
  randomness : Nat
  nonce : String
  maxEpoch : Nat
deriving DecidableEq, Repr

/-- prepareZKLogin from utils.ts. The fresh keypair (new Ed25519Keypair()) and
the 16 random bytes (randomBytes(16)) are entropy and enter as arguments. -/
def prepareZKLogin (currentEpoch : Nat) (ephemeralKeyPair : Ed25519Keypair)
    (entropy16 : List Nat) : LoginSession :=
  let maxEpoch := currentEpoch + 2
  let randomness := toBigIntBE entropy16
  let nonce := generateNonce ephemeralKeyPair.publicKey maxEpoch randomness
  { ephemeralKeyPair := ephemeralKeyPair
    randomness := randomness
    nonce := nonce
    maxEpoch := maxEpoch }

/-- Configuration record for one identity provider, as looked up in
zkProviderDataMap (an immutable provider to client-id/url mapping). -/
structure ZkProviderData where
  clientID : String
  url : String
deriving DecidableEq, Repr

/-- The prompt argument of zkLogin: a union of two string literals. -/
inductive Prompt where
  | select_account : Prompt
  | consent : Prompt
deriving DecidableEq, Repr

/-- The string a Prompt value denotes. -/
def Prompt.toStr : Prompt → String
  | .select_account => "select_account"
  | .consent => "consent"

/-- The base64url alphabet, in value order. -/
def base64urlChars : List Char :=
  "ABCDEFGHIJKLMNOPQRSTUVWXYZabcdefghijklmnopqrstuvwxyz0123456789-_".data

/-- The base64url character of a 6-bit value. -/
def b64Char (n : Nat) : Char := base64urlChars.getD n 'A'

/-- Unpadded base64url encoding over bytes, 3-byte groups to 4 characters,
trailing 1 or 2 bytes to 2 or 3 characters (the jose base64url.encode). -/
def base64urlEncodeBytes : List Nat → List Char
  | b1 :: b2 :: b3 :: rest =>
    b64Char (b1 / 4) :: b64Char (b1 % 4 * 16 + b2 / 16) ::
      b64Char (b2 % 16 * 4 + b3 / 64) :: b64Char (b3 % 64) ::
        base64urlEncodeBytes rest
  | [b1, b2] => [b64Char (b1 / 4), b64Char (b1 % 4 * 16 + b2 / 16), b64Char (b2 % 16 * 4)]
  | [b1] => [b64Char (b1 / 4), b64Char (b1 % 4 * 16)]
  | [] => []

/-- base64url.encode from jose over a byte buffer, as a string. -/
def base64urlEncode (bytes : List Nat) : String :=
  String.mk (base64urlEncodeBytes bytes)

/-- The nonce-defaulting step of zkLogin: a falsy nonce argument (omitted or
the empty string) is replaced by base64url.encode(randomBytes(20)); the 20
random bytes enter as the entropy20 argument. -/
def resolveNonce (nonce : Option String) (entropy20 : List Nat) : String :=
  match nonce with
  | some s => if s = "" then base64urlEncode entropy20 else s
  | none => base64urlEncode entropy20

/-- The query-parameter list zkLogin appends to the provider url to form the
authorization URL, given an already-resolved nonce. The loginHint append is
guarded by JavaScript truthiness, so an empty login hint is skipped; prompt
is a two-literal union, so truthiness coincides with presence. -/
def zkLoginAuthParams (data : ZkProviderData) (redirectURL : String) (nonce : String)
    (loginHint : Option String) (prompt : Option Prompt) : List (String × String) :=
  [("client_id", data.clientID),
   ("response_type", "id_token"),
   ("redirect_uri", redirectURL),
   ("scope", "openid email profile"),
   ("nonce", nonce)]
  ++ (match loginHint with
      | some h => if h = "" then [] else [("login_hint", h)]
      | none => [])
  ++ (match prompt with
      | some pm => [("prompt", pm.toStr)]
      | none => [])

/-- The authorization query parameters of zkLogin from its raw arguments:
nonce defaulting composed with parameter assembly. -/
def zkLoginRequestParams (data : ZkProviderData) (redirectURL : String)
    (nonceArg : Option String) (entropy20 : List Nat)
    (loginHint : Option String) (prompt : Option Prompt) : List (String × String) :=
  zkLoginAuthParams data redirectURL (resolveNonce nonceArg entropy20) loginHint prompt

/-- Splitting a character list on a separator; adjacent separators yield empty
segments, as String.prototype.split does. -/
def splitOnChar (sep : Char) : List Char → List (List Char)
  | [] => [[]]
  | c :: cs =>
    let r := splitOnChar sep cs
    if c = sep then [] :: r
    else
      match r with
      | [] => [[c]]
      | g :: gs => (c :: g) :: gs

/-- Splitting a segment at its first occurrence of sep: the part before, and
the part after when sep occurs at all. -/
def splitFirst (sep : Char) : List Char → List Char × Option (List Char)
  | [] => ([], none)
  | c :: cs =>
    if c = sep then ([], some cs)
    else
      let r := splitFirst sep cs
      (c :: r.1, r.2)

/-- Hexadecimal value of a character, none when it is not a hex digit. -/
def hexVal (c : Char) : Option Nat :=
  if '0' ≤ c ∧ c ≤ '9' then some (c.toNat - 48)
  else if 'A' ≤ c ∧ c ≤ 'F' then some (c.toNat - 55)
  else if 'a' ≤ c ∧ c ≤ 'f' then some (c.toNat - 87)
  else none

/-- Percent-decoding of a query component: a percent sign followed by two hex
digits becomes the coded character; an invalid escape is kept literally. -/
def percentDecode : List Char → List Char
  | [] => []
  | '%' :: h1 :: h2 :: rest =>
    match hexVal h1, hexVal h2 with
    | some v1, some v2 => Char.ofNat (v1 * 16 + v2) :: percentDecode rest
    | _, _ => '%' :: percentDecode (h1 :: h2 :: rest)
  | c :: cs => c :: percentDecode cs
termination_by l => l.length
decreasing_by
  all_goals simp [List.length_cons]
  omega

/-- Decoding of one application/x-www-form-urlencoded component: plus becomes
space, then percent escapes are decoded. -/
def decodeQueryPart (cs : List Char) : String :=
  String.mk (percentDecode (cs.map (fun c => if c = '+' then ' ' else c)))

/-- URLSearchParams construction from an init string: an optional leading
question mark is dropped, the rest splits on ampersands into key=value pairs
(first equals sign only; a segment with no equals sign has the empty value),
and keys and values are form-urlencoded-decoded. Empty segments are skipped. -/
def parseQuery (s : String) : List (String × String) :=
  let cs :=
    match s.data with
    | '?' :: rest => rest
    | other => other
  (splitOnChar '&' cs).filterMap (fun seg =>
    match seg with
    | [] => none
    | _ =>
      match splitFirst '=' seg with
      | (k, none) => some (decodeQueryPart k, "")
      | (k, some v) => some (decodeQueryPart k, decodeQueryPart v))

/-- URLSearchParams.get: the value of the first entry with the given key,
none when the key is absent. -/
def getParam (ps : List (String × String)) (k : String) : Option String :=
  (ps.find? (fun p => p.1 == k)).map (fun p => p.2)

/-- Removal of the first occurrence of a character, as the single-character
String.prototype.replace with an empty replacement does. -/
def removeFirst (c : Char) : List Char → List Char
  | [] => []
  | x :: xs => if x = c then xs else x :: removeFirst c xs

/-- The token-extraction tail of zkLogin: the redirect URL hash has its first
hash sign removed, is parsed as query parameters, and the id_token entry is
read; a missing or empty token throws the JWT-is-missing error, otherwise the
token is returned. -/
def zkLoginExtractToken (responseHash : String) : Except String String :=
  let responseParams := parseQuery (String.mk (removeFirst '#' responseHash.data))
  match getParam responseParams "id_token" with
  | none => .error "JWT is missing"
  | some jwt => if jwt = "" then .error "JWT is missing" else .ok jwt

/-- The salt registry base url of utils.ts. -/
def saltRegistryUrl : String := "http://salt.api-devnet.mystenlabs.com"

/-- The request fetchSalt issues: a single POST of the JSON body with the one
field token holding the identity token string. -/
def fetchSaltRequest (jwt : String) : HttpRequest :=
  { method := "POST"
    url := saltRegistryUrl ++ "/get_salt"
    contentType := "application/json"
    body := Json.obj [("token", Json.str jwt)] }

/-- The response handling of fetchSalt: the salt property of the parsed JSON
body is read and returned without any validation; none models the undefined
a missing field yields. The function has no error path of its own. -/
def fetchSaltResponse (respJson : Json) : Option Json :=
  jsonLookup respJson "salt"

/-- The keyClaimName argument of createPartialZKSignature: a union of the two
string literals sub and email. -/
inductive KeyClaimName where
  | sub : KeyClaimName
  | email : KeyClaimName
deriving DecidableEq, Repr

/-- The string a KeyClaimName value denotes. -/
def KeyClaimName.toStr : KeyClaimName → String
  | .sub => "sub"
  | .email => "email"

/-- The WalletInputs argument record of createPartialZKSignature; keyClaimName
is optional with default sub. -/
structure WalletInputs where
  jwt : String
  ephemeralPublicKey : PublicKey
  maxEpoch : Nat
  jwtRandomness : Nat
  userSalt : Nat
  keyClaimName : Option KeyClaimName
deriving DecidableEq, Repr

/-- The proof service base url of utils.ts. -/
def zkProofsServerUrl : String := "http://185.209.177.123:8000"

/-- The request createPartialZKSignature issues: a single POST whose JSON body
serializes the ephemeral public key as the decimal string of the big-endian
integer over its Sui byte encoding, the randomness and salt as decimal
strings, the epoch as a number, and the claim name with default sub. -/
def createPartialZKSignatureRequest (w : WalletInputs) : HttpRequest :=
  { method := "POST"
    url := zkProofsServerUrl ++ "/test/zkp"
    contentType := "application/json"
    body := Json.obj [
      ("jwt", Json.str w.jwt),
      ("eph_public_key", Json.str (bigintToString (toBigIntBE w.ephemeralPublicKey.suiBytes))),
      ("max_epoch", Json.num w.maxEpoch),
      ("jwt_randomness", Json.str (bigintToString w.jwtRandomness)),
      ("subject_pin", Json.str (bigintToString w.userSalt)),
      ("key_claim_name", Json.str ((w.keyClaimName.getD KeyClaimName.sub).toStr))] }

/-- The response handling of createPartialZKSignature: the parsed JSON body is
returned as the success value with no shape validation at all. -/
def createPartialZKSignatureResponse (respJson : Json) : Except String Json :=
  .ok respJson

/-- The shape the PartialZkSignature type declares: all four required fields
present on the response object. -/
def partialSigShapeOk (j : Json) : Bool :=
  jsonHasField j "proof_points" && jsonHasField j "address_seed" &&
    jsonHasField j "claims" && jsonHasField j "header_base64"

/-- The error taxonomy of the spec for the two post-token service calls. -/
inductive ZkError where
  | networkError : ZkError
  | timeoutError : ZkError
  | serviceError : ZkError
  | authenticationResponseError : ZkError
  | userAborted : ZkError
deriving DecidableEq, Repr

/-- Modelled from the spec: the LoginSession orchestration of section 4.6,
which is code of this repository not under src. Salt resolution and proof
assembly run over the same token; the attempt is complete only when both
succeed, and a failure of either is the failure of the whole attempt. -/
def orchestrateLogin {α β : Type} (saltResult : Except ZkError α)
    (proofResult : Except ZkError β) : Except ZkError (α × β) :=
  match saltResult, proofResult with
  | .ok s, .ok p => .ok (s, p)
  | .error e, _ => .error e
  | .ok _, .error e => .error e

theorem ofDigitsLE_nil : ofDigitsLE [] = 0 := rfl

theorem ofDigitsLE_cons (d : Nat) (ds : List Nat) :
    ofDigitsLE (d :: ds) = d + 10 * ofDigitsLE ds := rfl

theorem decDigitsAux_succ (fuel m : Nat) :
    decDigitsAux (fuel + 1) (m + 1) = (m + 1) % 10 :: decDigitsAux fuel ((m + 1) / 10) := rfl

theorem ofDigitsLE_decDigitsAux : ∀ fuel n : Nat, n ≤ fuel →
    ofDigitsLE (decDigitsAux fuel n) = n := by
  intro fuel
  induction fuel with
  | zero => intro n hn; interval_cases n; rfl
  | succ fuel ih =>
    intro n hn
    match n with
    | 0 => rfl
    | m + 1 =>
      rw [decDigitsAux_succ, ofDigitsLE_cons, ih]
      · omega
      · have hlt : (m + 1) / 10 < m + 1 := Nat.div_lt_self (Nat.succ_pos m) (by omega)
        omega

theorem ofDigitsLE_decDigitsLE (n : Nat) : ofDigitsLE (decDigitsLE n) = n :=
  ofDigitsLE_decDigitsAux n n (Nat.le_refl n)

theorem decDigitsAux_lt_ten : ∀ fuel n d : Nat, d ∈ decDigitsAux fuel n → d < 10 := by
  intro fuel
  induction fuel with
  | zero => intro n d hd; simp [decDigitsAux] at hd
  | succ fuel ih =>
    intro n d hd
    match n with
    | 0 => simp [decDigitsAux] at hd
    | m + 1 =>
      rw [decDigitsAux_succ] at hd
      rcases List.mem_cons.mp hd with h | h
      · omega
      · exact ih _ _ h

theorem decDigitsLE_lt_ten (n d : Nat) (hd : d ∈ decDigitsLE n) : d < 10 :=
  decDigitsAux_lt_ten n n d hd

theorem decDigitsAux_ne_nil (fuel n : Nat) (hpos : 0 < n) (hle : n ≤ fuel) :
    decDigitsAux fuel n ≠ [] := by
  match fuel, n with
  | 0, n => omega
  | fuel + 1, m + 1 => rw [decDigitsAux_succ]; exact List.cons_ne_nil _ _

theorem digitChar_isDigit (d : Nat) (hd : d < 10) : (Nat.digitChar d).isDigit = true := by
  interval_cases d <;> decide

theorem digitChar_val (d : Nat) (hd : d < 10) : (Nat.digitChar d).toNat - 48 = d := by
  interval_cases d <;> decide

theorem parseDecimal_bigintToString (n : Nat) :
    parseDecimal (bigintToString n) = some n := by
  rcases Nat.eq_zero_or_pos n with hz | hpos
  · subst hz; decide
  · have hne : bigintToString n = String.mk (((decDigitsLE n).reverse).map Nat.digitChar) := by
      rw [bigintToString, if_neg (by omega)]
    rw [hne]
    have hnil : decDigitsLE n ≠ [] := decDigitsAux_ne_nil n n hpos (Nat.le_refl n)
    have hmemd : ∀ d ∈ (decDigitsLE n).reverse, d < 10 := by
      intro d hd; exact decDigitsLE_lt_ten n d (List.mem_reverse.mp hd)
    cases hL : ((decDigitsLE n).reverse).map Nat.digitChar with
    | nil =>
      exfalso
      have := List.map_eq_nil_iff.mp hL
      exact hnil (by simpa using congrArg List.reverse this)
    | cons c cs =>
      have hdata : (String.mk (c :: cs)).data = c :: cs := rfl
      have hall : (c :: cs).all Char.isDigit = true := by
        rw [← hL]
        rw [List.all_eq_true]
        intro c hc
        rcases List.mem_map.mp hc with ⟨d, hd, hcd⟩
        subst hcd
        exact digitChar_isDigit d (hmemd d hd)
      have hmapback :
          (c :: cs).map (fun ch => ch.toNat - 48) = (decDigitsLE n).reverse := by
        rw [← hL, List.map_map]
        have : ∀ d ∈ (decDigitsLE n).reverse,
            ((fun ch : Char => ch.toNat - 48) ∘ Nat.digitChar) d = id d := by
          intro d hd
          simp only [Function.comp_apply, id]
          exact digitChar_val d (hmemd d hd)
        rw [List.map_congr_left this, List.map_id]
      rw [parseDecimal]
      simp only [hdata, hall, if_true]
      rw [hmapback, List.reverse_reverse, ofDigitsLE_decDigitsLE]

theorem toBigIntBE_append_singleton (xs : List Nat) (b : Nat) :
    toBigIntBE (xs ++ [b]) = toBigIntBE xs * 256 + b := by
  simp [toBigIntBE, List.foldl_append]

theorem natToBytesBE_toBigIntBE (xs : List Nat) (hb : ∀ b ∈ xs, b < 256) :
    natToBytesBE xs.length (toBigIntBE xs) = xs := by
  induction xs using List.reverseRecOn with
  | nil => rfl
  | append_singleton ys b ih =>
    have hb256 : b < 256 := hb b (by simp)
    have hys : ∀ x ∈ ys, x < 256 := fun x hx => hb x (by simp [hx])
    rw [toBigIntBE_append_singleton]
    have hlen : (ys ++ [b]).length = ys.length + 1 := by simp
    rw [hlen, natToBytesBE]
    have hdiv : (toBigIntBE ys * 256 + b) / 256 = toBigIntBE ys := by omega
    have hmod : (toBigIntBE ys * 256 + b) % 256 = b := by omega
    rw [hdiv, hmod, ih hys]

/-- Claim C1: the session returned by prepareZKLogin satisfies
nonce = generateNonce(publicKey, maxEpoch, randomness) over its own fields,
and the nonce is a pure function of exactly those three fields: any two
sessions agreeing on (publicKey, maxEpoch, randomness) carry the same nonce. -/
theorem prepareZKLogin_nonce_binding (currentEpoch : Nat) (kp : Ed25519Keypair)
    (entropy16 : List Nat) :
    (prepareZKLogin currentEpoch kp entropy16).nonce =
      generateNonce (prepareZKLogin currentEpoch kp entropy16).ephemeralKeyPair.publicKey
        (prepareZKLogin currentEpoch kp entropy16).maxEpoch
        (prepareZKLogin currentEpoch kp entropy16).randomness ∧
    (∀ (e1 e2 : Nat) (kp1 kp2 : Ed25519Keypair) (r1 r2 : List Nat),
      kp1.publicKey = kp2.publicKey →
      (prepareZKLogin e1 kp1 r1).maxEpoch = (prepareZKLogin e2 kp2 r2).maxEpoch →
      (prepareZKLogin e1 kp1 r1).randomness = (prepareZKLogin e2 kp2 r2).randomness →
      (prepareZKLogin e1 kp1 r1).nonce = (prepareZKLogin e2 kp2 r2).nonce) := by
  refine ⟨rfl, ?_⟩
  intro e1 e2 kp1 kp2 r1 r2 hpk hme hrnd
  simp only [prepareZKLogin] at hme hrnd ⊢
  rw [hpk, hme, hrnd]

/-- Witness for C1: two sessions built from different entropy byte lists that
denote the same randomness integer, at the same epoch and key, share a nonce. -/
theorem prepareZKLogin_nonce_binding_witness :
    (prepareZKLogin 5 ⟨⟨[0, 7]⟩⟩ [1, 2]).nonce =
      (prepareZKLogin 5 ⟨⟨[0, 7]⟩⟩ [0, 1, 2]).nonce :=
  (prepareZKLogin_nonce_binding 5 ⟨⟨[0, 7]⟩⟩ [1, 2]).2 5 5 ⟨⟨[0, 7]⟩⟩ ⟨⟨[0, 7]⟩⟩
    [1, 2] [0, 1, 2] rfl rfl (by decide)

/-- Claim C5: the maxEpoch produced by prepareZKLogin equals currentEpoch + 2
for every currentEpoch. -/
theorem prepareZKLogin_maxEpoch (currentEpoch : Nat) (kp : Ed25519Keypair)
    (entropy16 : List Nat) :
    (prepareZKLogin currentEpoch kp entropy16).maxEpoch = currentEpoch + 2 := rfl

/-- Claim C3: zkLogin's token extraction fails exactly when the redirect
fragment, parsed as query parameters, has no id_token entry or an empty one,
and succeeds with the token exactly when the entry is present and non-empty. -/
theorem zkLogin_token_extraction_iff (responseHash : String) :
    (∀ t : String, zkLoginExtractToken responseHash = .ok t ↔
      (getParam (parseQuery (String.mk (removeFirst '#' responseHash.data))) "id_token"
          = some t ∧ t ≠ "")) ∧
    ((∃ e, zkLoginExtractToken responseHash = .error e) ↔
      (getParam (parseQuery (String.mk (removeFirst '#' responseHash.data))) "id_token"
          = none ∨
        getParam (parseQuery (String.mk (removeFirst '#' responseHash.data))) "id_token"
          = some "")) := by
  cases hq : getParam (parseQuery (String.mk (removeFirst '#' responseHash.data))) "id_token" with
  | none =>
    refine ⟨fun t => ?_, ?_⟩ <;> simp [zkLoginExtractToken, hq]
  | some jwt =>
    by_cases hj : jwt = ""
    · subst hj
      refine ⟨fun t => ?_, ?_⟩ <;> simp [zkLoginExtractToken, hq]
      intro h
      exact h.symm
    · refine ⟨fun t => ?_, ?_⟩ <;> simp [zkLoginExtractToken, hq, hj]
      intro h
      subst h
      exact hj

/-- Claim C4: the orchestrated login attempt succeeds exactly when both the
salt resolution and the proof assembly succeed; when the salt call succeeds
and the proof call fails, the overall result is that failure, and a salt
failure likewise fails the whole attempt. -/
theorem orchestrateLogin_all_or_nothing {α β : Type} (s : Except ZkError α)
    (p : Except ZkError β) :
    ((∃ ab, orchestrateLogin s p = .ok ab) ↔ (∃ a, s = .ok a) ∧ (∃ b, p = .ok b)) ∧
    (∀ e, p = .error e → (∃ a, s = .ok a) → orchestrateLogin s p = .error e) ∧
    (∀ e, s = .error e → orchestrateLogin s p = .error e) := by
  cases s <;> cases p <;> simp [orchestrateLogin]

/-- Witness for C4: a resolved salt together with a proof-service timeout
yields the timeout failure, not a partial success. -/
theorem orchestrateLogin_all_or_nothing_witness :
    orchestrateLogin (Except.ok (12345 : Nat))
        (Except.error ZkError.timeoutError : Except ZkError Json) =
      Except.error ZkError.timeoutError :=
  (orchestrateLogin_all_or_nothing (Except.ok 12345)
      (Except.error ZkError.timeoutError)).2.1 ZkError.timeoutError rfl ⟨12345, rfl⟩

/-- Claim C6 (amended): the authorization query parameters are exactly
client_id, response_type id_token, redirect_uri, scope openid email profile
and nonce, plus login_hint exactly when a non-empty login hint is provided
and prompt exactly when a prompt is provided. -/
theorem zkLoginAuthParams_exact (data : ZkProviderData) (redirectURL nonce : String)
    (loginHint : Option String) (prompt : Option Prompt) (k v : String) :
    (k, v) ∈ zkLoginAuthParams data redirectURL nonce loginHint prompt ↔
      ((k = "client_id" ∧ v = data.clientID) ∨
       (k = "response_type" ∧ v = "id_token") ∨
       (k = "redirect_uri" ∧ v = redirectURL) ∨
       (k = "scope" ∧ v = "openid email profile") ∨
       (k = "nonce" ∧ v = nonce) ∨
       (∃ h, loginHint = some h ∧ h ≠ "" ∧ k = "login_hint" ∧ v = h) ∨
       (∃ pm, prompt = some pm ∧ k = "prompt" ∧ v = pm.toStr)) := by
  rcases loginHint with _ | h <;> rcases prompt with _ | pm
  · simp [zkLoginAuthParams]
  · simp [zkLoginAuthParams]
  · by_cases hh : h = "" <;> simp [zkLoginAuthParams, hh]
  · by_cases hh : h = "" <;> simp [zkLoginAuthParams, hh]

/-- Counterexample to C6 as stated: an empty login hint is a provided optional
argument, yet the parameter list carries no login_hint entry, because the
source guards the append with JavaScript truthiness. -/
theorem zkLoginAuthParams_counterexample :
    ((some "" : Option String) ≠ none) ∧
    ((zkLoginAuthParams ⟨"cid", "url"⟩ "redir" "nonce1" (some "") none).all
      (fun p => p.1 != "login_hint")) = true := by
  refine ⟨by simp, ?_⟩
  rfl

/-- Claim C7: fetchSalt issues a single POST of the JSON body with the one
token field to the salt registry get_salt endpoint, and on a response whose
JSON carries a salt field it returns that field's value. -/
theorem fetchSalt_request_and_salt_field (jwt : String) (respJson : Json) (v : Json)
    (hsalt : jsonLookup respJson "salt" = some v) :
    (fetchSaltRequest jwt).method = "POST" ∧
    (fetchSaltRequest jwt).url = saltRegistryUrl ++ "/get_salt" ∧
    (fetchSaltRequest jwt).contentType = "application/json" ∧
    (fetchSaltRequest jwt).body = Json.obj [("token", Json.str jwt)] ∧
    fetchSaltResponse respJson = some v :=
  ⟨rfl, rfl, rfl, rfl, hsalt⟩

/-- Witness for C7 at the token string tok and the registry response whose
salt field holds the decimal string 12345. -/
theorem fetchSalt_request_and_salt_field_witness :
    (fetchSaltRequest "tok").method = "POST" ∧
    (fetchSaltRequest "tok").url = saltRegistryUrl ++ "/get_salt" ∧
    (fetchSaltRequest "tok").contentType = "application/json" ∧
    (fetchSaltRequest "tok").body = Json.obj [("token", Json.str "tok")] ∧
    fetchSaltResponse (Json.obj [("salt", Json.str "12345")]) = some (Json.str "12345") :=
  fetchSalt_request_and_salt_field "tok" (Json.obj [("salt", Json.str "12345")])
    (Json.str "12345") rfl

/-- Claim C8 evaluated on the code: on a well-formed registry response with no
salt field, fetchSalt does not fail with a ServiceError; its response handling
yields the undefined of a missing property and the function returns normally,
contradicting the claimed error contract. -/
theorem fetchSalt_missing_salt_returns_undefined :
    fetchSaltResponse (Json.obj [("user", Json.str "alice")]) = none := rfl

/-- Claim C9 evaluated on the code: createPartialZKSignature returns the
parsed response JSON as a success without any shape validation, so a response
missing every required PartialZkSignature field is still returned as success. -/
theorem createPartialZKSignature_no_shape_validation :
    createPartialZKSignatureResponse (Json.obj []) = Except.ok (Json.obj []) ∧
    partialSigShapeOk (Json.obj []) = false :=
  ⟨rfl, rfl⟩

/-- Claim C2: the proof-service request of createPartialZKSignature carries
exactly the fields jwt, eph_public_key, max_epoch, jwt_randomness, subject_pin
and key_claim_name (defaulting to sub when omitted), with eph_public_key the
decimal string of the big-endian integer over the canonical key bytes, and
that encoding round-trips: parsing the decimal string recovers the integer,
and big-endian decoding at the key length recovers the original key bytes. -/
theorem createPartialZKSignature_request_spec (w : WalletInputs)
    (hb : ∀ b ∈ w.ephemeralPublicKey.suiBytes, b < 256) :
    (createPartialZKSignatureRequest w).method = "POST" ∧
    (createPartialZKSignatureRequest w).body = Json.obj [
      ("jwt", Json.str w.jwt),
      ("eph_public_key", Json.str (bigintToString (toBigIntBE w.ephemeralPublicKey.suiBytes))),
      ("max_epoch", Json.num w.maxEpoch),
      ("jwt_randomness", Json.str (bigintToString w.jwtRandomness)),
      ("subject_pin", Json.str (bigintToString w.userSalt)),
      ("key_claim_name", Json.str ((w.keyClaimName.getD KeyClaimName.sub).toStr))] ∧
    (w.keyClaimName = none →
      jsonLookup (createPartialZKSignatureRequest w).body "key_claim_name" =
        some (Json.str "sub")) ∧
    parseDecimal (bigintToString (toBigIntBE w.ephemeralPublicKey.suiBytes)) =
      some (toBigIntBE w.ephemeralPublicKey.suiBytes) ∧
    natToBytesBE w.ephemeralPublicKey.suiBytes.length
        (toBigIntBE w.ephemeralPublicKey.suiBytes) =
      w.ephemeralPublicKey.suiBytes := by
  refine ⟨rfl, rfl, ?_, parseDecimal_bigintToString _, natToBytesBE_toBigIntBE _ hb⟩
  intro hnone
  simp only [createPartialZKSignatureRequest, hnone, Option.getD_none, KeyClaimName.toStr]
  rfl

/-- Witness for C2 at a concrete three-byte key with a leading zero byte:
parsing the decimal rendering recovers the integer and big-endian decoding at
length three recovers the bytes, leading zero included. -/
theorem createPartialZKSignature_request_spec_witness :
    natToBytesBE 3 (toBigIntBE [0, 2, 255]) = [0, 2, 255] ∧
    parseDecimal (bigintToString (toBigIntBE [0, 2, 255])) = some (toBigIntBE [0, 2, 255]) ∧
    jsonLookup (createPartialZKSignatureRequest ⟨"j", ⟨[0, 2, 255]⟩, 5, 7, 9, none⟩).body
        "key_claim_name" = some (Json.str "sub") :=
  ⟨(createPartialZKSignature_request_spec ⟨"j", ⟨[0, 2, 255]⟩, 5, 7, 9, none⟩
      (by decide)).2.2.2.2,
   (createPartialZKSignature_request_spec ⟨"j", ⟨[0, 2, 255]⟩, 5, 7, 9, none⟩
      (by decide)).2.2.2.1,
   (createPartialZKSignature_request_spec ⟨"j", ⟨[0, 2, 255]⟩, 5, 7, 9, none⟩
      (by decide)).2.2.1 rfl⟩

/-- Claim C10: a falsy nonce argument (omitted or empty) never fails zkLogin:
the nonce is replaced by the base64url encoding of the 20 random bytes, a
value depending on no ephemeral keypair or epoch, and the authorization
parameters still carry that nonce entry. -/
theorem zkLogin_nonce_default (data : ZkProviderData) (redirectURL : String)
    (nonceArg : Option String) (entropy20 : List Nat)
    (loginHint : Option String) (prompt : Option Prompt)
    (hfalsy : nonceArg = none ∨ nonceArg = some "")
    (_hlen : entropy20.length = 20) :
    resolveNonce nonceArg entropy20 = base64urlEncode entropy20 ∧
    ("nonce", base64urlEncode entropy20) ∈
      zkLoginRequestParams data redirectURL nonceArg entropy20 loginHint prompt := by
  have hres : resolveNonce nonceArg entropy20 = base64urlEncode entropy20 := by
    rcases hfalsy with h | h <;> subst h <;> simp [resolveNonce]
  refine ⟨hres, ?_⟩
  simp [zkLoginRequestParams, zkLoginAuthParams, hres]

/-- Witness for C10 at an omitted nonce and 20 zero entropy bytes. -/
theorem zkLogin_nonce_default_witness :
    resolveNonce none (List.replicate 20 0) = base64urlEncode (List.replicate 20 0) ∧
    ("nonce", base64urlEncode (List.replicate 20 0)) ∈
      zkLoginRequestParams ⟨"cid", "url"⟩ "redir" none (List.replicate 20 0) none none :=
  zkLogin_nonce_default ⟨"cid", "url"⟩ "redir" none (List.replicate 20 0) none none
    (Or.inl rfl) (by decide)
